import Mathlib

/-!
KlarText pipeline — verification of the specified core.

The repository (esmahoney/klartext) ships the architecture documents
(`hybrid_arch.md`, README, agent notes) and a Next.js front-end skeleton.
The chunk-routing / verification / fallback / cache pipeline itself is
specified but its implementation is not among the repository files, so the
pipeline components below are modelled from the spec's words; the front-end
components (`RootLayout`, `Home`) are embedded from the TypeScript source.
-/

namespace Klartext

/-! ## Routing: inference path and prompt tier -/

/-- The two inference paths of the hybrid architecture. -/
inductive Path where
  | local_
  | remote
deriving DecidableEq

/-- The two prompt strictness tiers. -/
inductive Tier where
  | standard
  | strict
deriving DecidableEq

/-- Strictness rank of a path: the remote path is the higher-scrutiny one. -/
def Path.rank : Path → Nat
  | .local_ => 0
  | .remote => 1

/-- Strictness rank of a tier. -/
def Tier.rank : Tier → Nat
  | .standard => 0
  | .strict => 1

/-- A Router selection: an inference path together with a prompt tier. -/
structure RouteChoice where
  path : Path
  tier : Tier
deriving DecidableEq

/-- `a` is at most as strict as `b`, componentwise. -/
def RouteChoice.le (a b : RouteChoice) : Prop :=
  a.path.rank ≤ b.path.rank ∧ a.tier.rank ≤ b.tier.rank

instance (a b : RouteChoice) : Decidable (a.le b) :=
  inferInstanceAs (Decidable (_ ∧ _))

/-- Routing input computed once per chunk before routing. -/
structure RiskProfile where
  pii : Bool
  restrictedDomain : Bool
  complexity : Nat
deriving DecidableEq

/-- Configured routing thresholds. -/
structure RouterConfig where
  complexityThreshold : Nat
deriving DecidableEq

/-- Modelled from the spec: §4.3 Risk Classifier / Router (the Router's
implementation is not among the repository files).  PII or restricted-domain
flag set ⇒ remote path with strict tier; complexity score above the
configured threshold ⇒ remote path; otherwise ⇒ local path, standard tier. -/
def route (cfg : RouterConfig) (rp : RiskProfile) : RouteChoice :=
  if rp.pii || rp.restrictedDomain then ⟨.remote, .strict⟩
  else if cfg.complexityThreshold < rp.complexity then ⟨.remote, .standard⟩
  else ⟨.local_, .standard⟩

/-- Modelled from the spec: re-routing on fallback always escalates
(local→remote, standard→strict), never the reverse. -/
def escalate (_ : RouteChoice) : RouteChoice :=
  ⟨.remote, .strict⟩

/-! ## Fallback Controller -/

/-- Terminal outcome of one chunk's pipeline pass. -/
inductive Outcome where
  | done (text : String)
  | safeFallback
deriving DecidableEq

/-- The fixed, honest safe-fallback message. -/
def safeMessage : String := "could not safely simplify this passage"

/-- What one chunk's run produced: the terminal outcome, the number of
Inference Adapter invocations, and the routing choices of the attempts in
order. -/
structure RunResult where
  outcome : Outcome
  invocations : Nat
  choices : List RouteChoice
deriving DecidableEq

/-- Modelled from the spec: §4.7 Fallback Controller state machine, run to
termination (the controller's implementation is not among the repository
files).  `oracle n c` stands for attempt `n`'s combined
inference/post-process/verification result under routing choice `c`:
`some t` when verification passes, `none` when it fails.  `fuel` is the
number of attempts still allowed (`maxAttempts - n + 1`): on failure with
attempts left the controller escalates and re-attempts, on failure at the
last allowed attempt it moves to `safeFallback`. -/
def runFrom (oracle : Nat → RouteChoice → Option String) (c : RouteChoice)
    (n : Nat) : Nat → RunResult
  | 0 => ⟨.safeFallback, 0, []⟩
  | fuel + 1 =>
    match oracle n c with
    | some t => ⟨.done t, 1, [c]⟩
    | none =>
      let r := runFrom oracle (escalate c) (n + 1) fuel
      ⟨r.outcome, r.invocations + 1, c :: r.choices⟩

/-- One chunk's full fallback-controlled run: route by risk profile, then
attempt up to `maxAttempts` times. -/
def runChunk (oracle : Nat → RouteChoice → Option String) (cfg : RouterConfig)
    (rp : RiskProfile) (maxAttempts : Nat) : RunResult :=
  runFrom oracle (route cfg rp) 1 maxAttempts

theorem runFrom_invocations_le (oracle : Nat → RouteChoice → Option String) :
    ∀ fuel c n, (runFrom oracle c n fuel).invocations ≤ fuel := by
  intro fuel
  induction fuel with
  | zero => intro c n; simp [runFrom]
  | succ fuel ih =>
    intro c n
    simp only [runFrom]
    cases oracle n c with
    | some t => simp
    | none => simpa using ih (escalate c) (n + 1)

theorem runFrom_fail_outcome (oracle : Nat → RouteChoice → Option String)
    (hfail : ∀ n c, oracle n c = none) :
    ∀ fuel c n, (runFrom oracle c n fuel).outcome = .safeFallback := by
  intro fuel
  induction fuel with
  | zero => intro c n; simp [runFrom]
  | succ fuel ih =>
    intro c n
    simp only [runFrom, hfail n c]
    exact ih (escalate c) (n + 1)

/-- C1: for every chunk, the pipeline invokes the Inference Adapter at most
`maxAttempts` times, and when verification fails on every allowed attempt the
chunk's terminal state is `safeFallback` (which the response renders as the
fixed safe message) — fallback processing always terminates (`runChunk` is a
total function) and never loops forever. -/
theorem fallback_termination (oracle : Nat → RouteChoice → Option String)
    (cfg : RouterConfig) (rp : RiskProfile) (maxAttempts : Nat) :
    (runChunk oracle cfg rp maxAttempts).invocations ≤ maxAttempts ∧
      ((∀ n c, oracle n c = none) →
        (runChunk oracle cfg rp maxAttempts).outcome = .safeFallback) :=
  ⟨runFrom_invocations_le oracle maxAttempts (route cfg rp) 1,
   fun hfail => runFrom_fail_outcome oracle hfail maxAttempts (route cfg rp) 1⟩

/-- C7: the Router's selection is a deterministic function (`route` is a pure
Lean function) of the risk profile and the configured threshold: PII or
restricted-domain flag ⇒ remote/strict; complexity above the threshold ⇒
remote path; otherwise local/standard. -/
theorem router_policy (cfg : RouterConfig) (rp : RiskProfile) :
    ((rp.pii = true ∨ rp.restrictedDomain = true) →
        route cfg rp = ⟨.remote, .strict⟩) ∧
      (rp.pii = false → rp.restrictedDomain = false →
        cfg.complexityThreshold < rp.complexity →
        (route cfg rp).path = .remote) ∧
      (rp.pii = false → rp.restrictedDomain = false →
        rp.complexity ≤ cfg.complexityThreshold →
        route cfg rp = ⟨.local_, .standard⟩) := by
  refine ⟨fun h => ?_, fun hp hr hc => ?_, fun hp hr hc => ?_⟩
  · rcases h with h | h <;> simp [route, h]
  · simp [route, hp, hr, hc]
  · simp [route, hp, hr, Nat.not_lt.mpr hc]

theorem RouteChoice.le_escalate (a b : RouteChoice) : a.le (escalate b) := by
  refine ⟨?_, ?_⟩
  · cases a.path <;> simp [Path.rank, escalate]
  · cases a.tier <;> simp [Tier.rank, escalate]

instance : IsTrans RouteChoice RouteChoice.le :=
  ⟨fun _ _ _ hab hbc => ⟨le_trans hab.1 hbc.1, le_trans hab.2 hbc.2⟩⟩

theorem runFrom_choices_head (oracle : Nat → RouteChoice → Option String) :
    ∀ fuel c n, 0 < fuel →
      ((runFrom oracle c n fuel).choices).head? = some c := by
  intro fuel c n hf
  match fuel with
  | fuel + 1 =>
    simp only [runFrom]
    cases h : oracle n c <;> simp [h]

theorem runFrom_choices_chain (oracle : Nat → RouteChoice → Option String) :
    ∀ fuel c n, List.Chain' RouteChoice.le (runFrom oracle c n fuel).choices := by
  intro fuel
  induction fuel with
  | zero => intro c n; simp [runFrom]
  | succ fuel ih =>
    intro c n
    simp only [runFrom]
    cases h : oracle n c with
    | some t => simp
    | none =>
      simp only [h]
      rw [List.chain'_cons']
      refine ⟨fun y hy => ?_, ih (escalate c) (n + 1)⟩
      cases fuel with
      | zero => simp [runFrom] at hy
      | succ f =>
        rw [runFrom_choices_head oracle (f + 1) (escalate c) (n + 1)
          (Nat.succ_pos f)] at hy
        rw [Option.mem_some_iff] at hy
        subst hy
        exact RouteChoice.le_escalate c c

/-- C8: across the retries for one chunk, the sequence of (path, tier)
selections is non-decreasing in strictness — every later selection is at
least as strict as every earlier one, so escalation never reverts within the
retry budget. -/
theorem routing_escalation_monotone (oracle : Nat → RouteChoice → Option String)
    (cfg : RouterConfig) (rp : RiskProfile) (maxAttempts : Nat) :
    List.Pairwise RouteChoice.le (runChunk oracle cfg rp maxAttempts).choices :=
  List.chain'_iff_pairwise.mp
    (runFrom_choices_chain oracle maxAttempts (route cfg rp) 1)

/-! ## Chunker -/

/-- A sentence of the (whitespace-normalized) input, as its list of words. -/
abbrev Sentence := List String

/-- Modelled from the spec: §4.1 Chunker, greedy grouping of whole sentences
into chunks of at most `maxWords` words (the Chunker's implementation is not
among the repository files).  A sentence that alone exceeds the bound becomes
its own oversized chunk; boundaries always fall on sentence boundaries.
`cur` is the current chunk's sentences in reverse, `curW` its word count. -/
def chunkGo (maxWords : Nat) (cur : List Sentence) (curW : Nat) :
    List Sentence → List (List Sentence)
  | [] => if cur.isEmpty then [] else [cur.reverse]
  | s :: rest =>
    if curW + s.length ≤ maxWords then
      chunkGo maxWords (s :: cur) (curW + s.length) rest
    else if cur.isEmpty then
      chunkGo maxWords (s :: cur) (curW + s.length) rest
    else
      cur.reverse :: chunkGo maxWords [s] s.length rest

/-- The Chunker: split the normalized input (a list of sentences) into
ordered chunks.  Empty input yields zero chunks. -/
def chunker (maxWords : Nat) (sentences : List Sentence) : List (List Sentence) :=
  chunkGo maxWords [] 0 sentences

/-- The text of a chunk: its words in order. -/
def chunkText (c : List Sentence) : List String :=
  c.flatten

theorem chunkGo_flatten (maxWords : Nat) :
    ∀ (ss : List Sentence) (cur : List Sentence) (curW : Nat),
      (chunkGo maxWords cur curW ss).flatten = cur.reverse ++ ss := by
  intro ss
  induction ss with
  | nil =>
    intro cur curW
    cases cur <;> simp [chunkGo]
  | cons s rest ih =>
    intro cur curW
    simp only [chunkGo]
    split
    · rw [ih]; simp
    · split
      · rw [ih]; simp
      · simp only [List.flatten_cons]
        rw [ih]; simp

/-- C2: concatenating the Chunker's output chunks in order reconstructs the
original input — at the sentence level the flattened chunks are exactly the
input's sentences, and hence the concatenated chunk texts are exactly the
input's words (the model works on whitespace-normalized text, so equality
here is equality up to whitespace normalization).  No content is dropped. -/
theorem chunker_coverage (maxWords : Nat) (sentences : List Sentence) :
    (chunker maxWords sentences).flatten = sentences ∧
      ((chunker maxWords sentences).map chunkText).flatten = sentences.flatten := by
  have h : (chunker maxWords sentences).flatten = sentences := by
    simpa using chunkGo_flatten maxWords sentences [] 0
  refine ⟨h, ?_⟩
  have h2 : ((chunker maxWords sentences).map chunkText).flatten
      = ((chunker maxWords sentences).flatten).flatten :=
    (List.flatten_flatten).symm
  rw [h2, h]

/-! ## Cache -/

/-- A simplify request at the external boundary. -/
structure SimplifyRequest where
  text : String
  level : String
  targetLang : String
deriving DecidableEq

/-- Whitespace normalization: collapse all whitespace runs to single
spaces. -/
def normalizeText (s : String) : String :=
  " ".intercalate ((s.split fun c => c.isWhitespace).filter fun w => w ≠ "")

/-- Modelled from the spec: the cache key — a fingerprint of normalized text,
level, target language and policy version (the hash is modelled as the
normalized tuple itself, an injective content address). -/
structure Fingerprint where
  normText : String
  level : String
  targetLang : String
  policyVersion : Nat
deriving DecidableEq

/-- The fingerprint of a request under a policy version. -/
def fingerprint (policyVersion : Nat) (req : SimplifyRequest) : Fingerprint :=
  ⟨normalizeText req.text, req.level, req.targetLang, policyVersion⟩

/-- Cache contents plus the count of Inference Adapter invocations made so
far. -/
structure CacheState where
  entries : List (Fingerprint × String)
  invocations : Nat
deriving DecidableEq

/-- Cache lookup: the stored output for a fingerprint, or `none` on miss. -/
def findEntry (fp : Fingerprint) : List (Fingerprint × String) → Option String
  | [] => none
  | (k, v) :: rest => if k = fp then some v else findEntry fp rest

/-- Modelled from the spec: §4.2 Cache wrapped around one simplify call (the
Cache's implementation is not among the repository files).  On a hit the
stored output is returned without a provider call; on a miss the Inference
Adapter (`adapter`) is invoked once and the result stored under the
request's fingerprint. -/
def simplifyCached (adapter : SimplifyRequest → String) (policyVersion : Nat)
    (req : SimplifyRequest) (st : CacheState) : String × CacheState :=
  let fp := fingerprint policyVersion req
  match findEntry fp st.entries with
  | some out => (out, st)
  | none =>
    let out := adapter req
    (out, ⟨(fp, out) :: st.entries, st.invocations + 1⟩)

/-- C3: calling simplify twice with identical (text, level, target_lang) and
an unchanged policy version causes exactly one Inference Adapter invocation
in total, and the second call returns output equal to the first call's output
(served from the cache under the same fingerprint). -/
theorem cache_idempotence (adapter : SimplifyRequest → String)
    (policyVersion : Nat) (req : SimplifyRequest) :
    let first := simplifyCached adapter policyVersion req ⟨[], 0⟩
    let second := simplifyCached adapter policyVersion req first.2
    second.2.invocations = 1 ∧ second.1 = first.1 := by
  simp [simplifyCached, findEntry]

/-! ## Verifier -/

/-- Numeric value of a decimal digit character. -/
def digitVal (c : Char) : Nat :=
  c.toNat - 48

/-- Extract the values of all maximal digit runs of a character list; `acc`
holds the value of the digit run in progress, if any. -/
def extractNumsGo : List Char → Option Nat → List Nat
  | [], none => []
  | [], some acc => [acc]
  | c :: cs, none =>
    if c.isDigit then extractNumsGo cs (some (digitVal c))
    else extractNumsGo cs none
  | c :: cs, some acc =>
    if c.isDigit then extractNumsGo cs (some (acc * 10 + digitVal c))
    else acc :: extractNumsGo cs none

/-- The number/date tokens extractable from a text, as the values of its
maximal digit runs (date tokens contribute their digit components). -/
def extractNumbers (s : String) : List Nat :=
  extractNumsGo s.data none

/-- Modelled from the spec: the Verifier's numeric/date-preservation check
(the Verifier's implementation is not among the repository files).  It passes
iff every number extractable from the source appears in the output and the
output contains no extra invented numbers. -/
def numericCheck (src out : String) : Bool :=
  ((extractNumbers src).all fun n => decide (n ∈ extractNumbers out)) &&
    ((extractNumbers out).all fun n => decide (n ∈ extractNumbers src))

/-- Per-check outcome of the Verifier's fidelity checks. -/
structure VerificationReport where
  numericPreserved : Bool
  negationPreserved : Bool
  languageConform : Bool
  policyClean : Bool
deriving DecidableEq

/-- Overall verdict: pass only if all mandatory checks pass. -/
def VerificationReport.verdict (r : VerificationReport) : Bool :=
  r.numericPreserved && r.negationPreserved && r.languageConform && r.policyClean

/-- Modelled from the spec: §4.6 Verifier — run the ordered independent
checks on (source chunk, processed output) and record each outcome; the
negation, language and policy checks are external heuristics passed in as
functions. -/
def verify (negCheck langCheck polCheck : String → String → Bool)
    (src out : String) : VerificationReport :=
  ⟨numericCheck src out, negCheck src out, langCheck src out, polCheck src out⟩

/-- C4: the numeric/date-preservation check passes only if every number
extractable from the source appears in the output and the output contains no
extra invented numbers; in particular, for the source "15 days" and an output
in which a digit was changed to give "50 days", the VerificationReport
records a failure on that check (and hence a failing overall verdict). -/
theorem verifier_numeric_preservation
    (negCheck langCheck polCheck : String → String → Bool) (src out : String) :
    ((verify negCheck langCheck polCheck src out).numericPreserved = true →
        (∀ n ∈ extractNumbers src, n ∈ extractNumbers out) ∧
          ∀ n ∈ extractNumbers out, n ∈ extractNumbers src) ∧
      (verify negCheck langCheck polCheck "15 days" "50 days").numericPreserved
          = false ∧
      (verify negCheck langCheck polCheck "15 days" "50 days").verdict = false := by
  refine ⟨fun hpass => ?_, ?_, ?_⟩
  · have h := hpass
    simp only [verify, numericCheck, Bool.and_eq_true, List.all_eq_true,
      decide_eq_true_eq] at h
    exact h
  · show numericCheck "15 days" "50 days" = false
    decide
  · show (numericCheck "15 days" "50 days" && _) = false
    rw [show numericCheck "15 days" "50 days" = false from by decide]
    simp

/-! ## Document processing: per-chunk containment -/

/-- The text a chunk's terminal state contributes to the response: the
verified output on `done`, the fixed safe message on `safeFallback`. -/
def terminalText (r : RunResult) : String :=
  match r.outcome with
  | .done t => t
  | .safeFallback => safeMessage

/-- Modelled from the spec: each chunk of a Document is processed
independently through the routed, fallback-bounded pipeline; `oracles i` is
chunk `i`'s per-attempt inference/verification behaviour and `i` counts
ordinals from the given start. -/
def processFrom (oracles : Nat → Nat → RouteChoice → Option String)
    (cfg : RouterConfig) (maxAttempts : Nat) :
    Nat → List RiskProfile → List String
  | _, [] => []
  | i, rp :: rest =>
    terminalText (runChunk (oracles i) cfg rp maxAttempts) ::
      processFrom oracles cfg maxAttempts (i + 1) rest

/-- The whole-Document response: one output text per chunk, in order. -/
def processDocument (oracles : Nat → Nat → RouteChoice → Option String)
    (cfg : RouterConfig) (maxAttempts : Nat)
    (profiles : List RiskProfile) : List String :=
  processFrom oracles cfg maxAttempts 0 profiles

theorem processFrom_length (oracles : Nat → Nat → RouteChoice → Option String)
    (cfg : RouterConfig) (maxAttempts : Nat) :
    ∀ (profiles : List RiskProfile) (start : Nat),
      (processFrom oracles cfg maxAttempts start profiles).length
        = profiles.length := by
  intro profiles
  induction profiles with
  | nil => intro start; simp [processFrom]
  | cons rp rest ih => intro start; simp [processFrom, ih]

theorem processFrom_getElem
    (oracles : Nat → Nat → RouteChoice → Option String)
    (cfg : RouterConfig) (maxAttempts : Nat) :
    ∀ (profiles : List RiskProfile) (start i : Nat) (rp : RiskProfile),
      profiles[i]? = some rp →
      (processFrom oracles cfg maxAttempts start profiles)[i]?
        = some (terminalText (runChunk (oracles (start + i)) cfg rp maxAttempts)) := by
  intro profiles
  induction profiles with
  | nil => intro start i rp h; simp at h
  | cons q rest ih =>
    intro start i rp h
    cases i with
    | zero =>
      simp only [List.getElem?_cons_zero, Option.some.injEq] at h
      subst h
      simp [processFrom]
    | succ j =>
      simp only [List.getElem?_cons_succ] at h
      have := ih (start + 1) j rp h
      simp only [processFrom, List.getElem?_cons_succ]
      rw [this]
      have harith : start + 1 + j = start + (j + 1) := by omega
      rw [harith]

/-- C5: per-chunk failures are contained.  The Document response always has
one output per chunk; the output at each position is a function of that
chunk's own behaviour alone (so another chunk's permanent failure cannot
abort or blank it); and a chunk whose attempts are exhausted contributes
exactly the fixed safe message in its own position. -/
theorem failure_containment (oracles : Nat → Nat → RouteChoice → Option String)
    (cfg : RouterConfig) (maxAttempts : Nat) (profiles : List RiskProfile)
    (i : Nat) (rp : RiskProfile) (hrp : profiles[i]? = some rp) :
    (processDocument oracles cfg maxAttempts profiles).length = profiles.length ∧
      (processDocument oracles cfg maxAttempts profiles)[i]?
        = some (terminalText (runChunk (oracles i) cfg rp maxAttempts)) ∧
      ((runChunk (oracles i) cfg rp maxAttempts).outcome = .safeFallback →
        (processDocument oracles cfg maxAttempts profiles)[i]? = some safeMessage) := by
  have hget := processFrom_getElem oracles cfg maxAttempts profiles 0 i rp hrp
  rw [Nat.zero_add] at hget
  refine ⟨processFrom_length oracles cfg maxAttempts profiles 0, hget, fun hsf => ?_⟩
  show (processFrom oracles cfg maxAttempts 0 profiles)[i]? = some safeMessage
  rw [hget, terminalText, hsf]

/-- Closed witness for `failure_containment`: a two-chunk document whose
second chunk fails every attempt yields a full-length response with the safe
message exactly in the failing chunk's position and the verified text in the
other. -/
theorem failure_containment_witness :
    (processDocument
        (fun i _ _ => if i = 0 then some "ok" else none)
        ⟨5⟩ 2 [⟨false, false, 0⟩, ⟨false, false, 0⟩]).length = 2 ∧
      (processDocument
          (fun i _ _ => if i = 0 then some "ok" else none)
          ⟨5⟩ 2 [⟨false, false, 0⟩, ⟨false, false, 0⟩])[1]?
        = some safeMessage := by
  have h := failure_containment
    (fun i _ _ => if i = 0 then some "ok" else none)
    ⟨5⟩ 2 [⟨false, false, 0⟩, ⟨false, false, 0⟩] 1 ⟨false, false, 0⟩ (by decide)
  exact ⟨h.1, h.2.2 (by decide)⟩

/-! ## Recombiner -/

/-- The completed output for ordinal `i` among the per-chunk results, found
by its ordinal regardless of the order completions arrived in. -/
def lookupOrdinal (i : Nat) : List (Nat × String) → Option String
  | [] => none
  | (j, t) :: rest => if j = i then some t else lookupOrdinal i rest

/-- Collect, in ordinal order, the completed outputs for the given
ordinals; `none` if any ordinal's result is missing. -/
def collectOrdinals : List Nat → List (Nat × String) → Option (List String)
  | [], _ => some []
  | i :: is, results =>
    match lookupOrdinal i results, collectOrdinals is results with
    | some t, some ts => some (t :: ts)
    | _, _ => none

/-- Modelled from the spec: §4.8 Recombiner (the Recombiner's implementation
is not among the repository files) — given the per-chunk terminal outputs
tagged with their original ordinals, in whatever order processing completed,
reassemble the document in strict ordinal order `0, 1, …, n-1`. -/
def recombine (n : Nat) (results : List (Nat × String)) : Option (List String) :=
  collectOrdinals (List.range n) results

theorem lookupOrdinal_of_nodup_keys (i : Nat) (v : String) :
    ∀ l : List (Nat × String), (l.map Prod.fst).Nodup → (i, v) ∈ l →
      lookupOrdinal i l = some v := by
  intro l
  induction l with
  | nil => intro _ hmem; simp at hmem
  | cons p rest ih =>
    intro hnd hmem
    obtain ⟨k, w⟩ := p
    simp only [List.map_cons, List.nodup_cons] at hnd
    simp only [lookupOrdinal]
    by_cases hk : k = i
    · subst hk
      rcases List.mem_cons.mp hmem with heq | hmem2
      · cases heq; simp
      · exact absurd (List.mem_map_of_mem Prod.fst hmem2) hnd.1
    · rw [if_neg hk]
      refine ih hnd.2 ?_
      rcases List.mem_cons.mp hmem with heq | hmem2
      · cases heq; exact absurd rfl hk
      · exact hmem2

theorem collectOrdinals_of_lookup (f : Nat → String)
    (results : List (Nat × String)) :
    ∀ is : List Nat, (∀ i ∈ is, lookupOrdinal i results = some (f i)) →
      collectOrdinals is results = some (is.map f) := by
  intro is
  induction is with
  | nil => intro _; simp [collectOrdinals]
  | cons i rest ih =>
    intro h
    simp only [collectOrdinals, h i (List.mem_cons_self i rest),
      ih fun j hj => h j (List.mem_cons_of_mem i hj), List.map_cons]

/-- C6: for every Document and every order in which its chunks' processing
completes (any permutation of the tagged per-chunk terminal outputs), the
Recombiner reassembles exactly the outputs in strictly increasing original
ordinal order, with one output per chunk — no chunk is reordered or
dropped. -/
theorem recombiner_order_invariance (n : Nat) (f : Nat → String)
    (results : List (Nat × String))
    (hperm : results.Perm ((List.range n).map fun i => (i, f i))) :
    recombine n results = some ((List.range n).map f) ∧
      ((List.range n).map f).length = n := by
  have hkeys : (results.map Prod.fst).Nodup := by
    have hp : (results.map Prod.fst).Perm
        (((List.range n).map fun i => (i, f i)).map Prod.fst) :=
      hperm.map Prod.fst
    rw [hp.nodup_iff, List.map_map,
      show (Prod.fst ∘ fun i : Nat => (i, f i)) = id from rfl, List.map_id]
    exact List.nodup_range n
  have hlook : ∀ i ∈ List.range n, lookupOrdinal i results = some (f i) := by
    intro i hi
    refine lookupOrdinal_of_nodup_keys i (f i) results hkeys ?_
    exact hperm.mem_iff.mpr (List.mem_map_of_mem (fun i => (i, f i)) hi)
  exact ⟨collectOrdinals_of_lookup f results (List.range n) hlook, by simp⟩

/-- Closed witness for `recombiner_order_invariance`: two chunks completing
in reversed order are reassembled in ordinal order. -/
theorem recombiner_order_invariance_witness :
    recombine 2 [(1, "b"), (0, "a")] = some ["a", "b"] ∧
      (["a", "b"] : List String).length = 2 := by
  have h := recombiner_order_invariance 2 (fun i => if i = 0 then "a" else "b")
    [(1, "b"), (0, "a")] (by decide)
  exact ⟨h.1, rfl⟩

/-! ## Front-end components (embedded from the Next.js source) -/

/-- A JSX attribute value: string, number, or boolean. -/
inductive AttrVal where
  | str (s : String)
  | int (i : Int)
  | bool (b : Bool)

/-- A rendered HTML tree. -/
inductive Node where
  | element (tag : String) (attrs : List (String × AttrVal)) (children : List Node)
  | text (s : String)

/-- The tag of an element node. -/
def Node.tag? : Node → Option String
  | .element t _ _ => some t
  | .text _ => none

/-- First value bound to attribute `k` in an attribute list. -/
def lookupAttr (k : String) : List (String × AttrVal) → Option AttrVal
  | [] => none
  | (k2, v) :: rest => if k2 = k then some v else lookupAttr k rest

/-- The value of attribute `k` on a node. -/
def Node.attr? (k : String) : Node → Option AttrVal
  | .element _ attrs _ => lookupAttr k attrs
  | .text _ => none

/-- The children of a node. -/
def Node.children : Node → List Node
  | .element _ _ cs => cs
  | .text _ => []

/-- JavaScript `env || dflt` on an optional environment variable: an unset
variable and the empty string are both falsy, so both fall back to
`dflt`. -/
def jsOrElse (v : Option String) (dflt : String) : String :=
  match v with
  | none => dflt
  | some s => if s = "" then dflt else s

/-- The `RootLayout` component (src/unnamed/part_002): html lang="de" with a
preconnect link whose href is `NEXT_PUBLIC_API_BASE_URL || "http://localhost:8000"`,
a body whose first element is the skip link to "#main-content", and the
children wrapped in the div id="main-content" with tabIndex -1. -/
def rootLayout (apiBaseUrlEnv : Option String) (children : Node) : Node :=
  .element "html" [("lang", .str "de"), ("suppressHydrationWarning", .bool true)]
    [.element "head" []
      [.element "link"
        [("rel", .str "preconnect"),
         ("href", .str (jsOrElse apiBaseUrlEnv "http://localhost:8000"))] []],
     .element "body" []
      [.element "a" [("href", .str "#main-content"), ("className", .str "skip-link")]
        [.text "Skip to main content"],
       .element "div" [("id", .str "main-content"), ("tabIndex", .int (-1))]
        [children]]]

/-- The `Home` page component (src/unnamed/part_002): the API-base paragraph
renders `NEXT_PUBLIC_API_BASE_URL || "Not configured"`. -/
def home (apiBaseUrlEnv : Option String) : Node :=
  .element "main" [("className", .str "container py-8")]
    [.element "header" [("className", .str "mb-8")]
      [.element "h1" [("className", .str "text-2xl font-bold text-primary-700")]
        [.text "KlarText"],
       .element "p" [("className", .str "text-lg text-[var(--color-text-secondary)]")]
        [.text "Turn complex text into easy-to-understand language"]],
     .element "section"
      [("aria-labelledby", .str "input-heading"), ("className", .str "mb-8")]
      [.element "h2" [("id", .str "input-heading"), ("className", .str "sr-only")]
        [.text "Text Input"],
       .element "p" [("className", .str "text-[var(--color-text-secondary)]")]
        [.text "Starter skeleton. Replace with the accessibility-first UI."],
       .element "p" [("className", .str "text-sm mt-4 text-[var(--color-text-secondary)]")]
        [.text "API base: ", .text (jsOrElse apiBaseUrlEnv "Not configured")]]]

/-- The href of the head's preconnect link in a layout tree. -/
def preconnectHref (layout : Node) : Option AttrVal :=
  layout.children.head?.bind fun hd => hd.children.head?.bind (Node.attr? "href")

/-- The dynamic text node of the Home page's API-base paragraph. -/
def homeApiText (page : Node) : Option Node :=
  page.children[1]?.bind fun sec => sec.children[2]?.bind fun p => p.children[1]?

/-- C9: for every children value and every environment, `RootLayout` renders
an html element whose lang attribute is the constant "de" (the content being
English changes nothing), whose body's first element is the skip link
anchored at "#main-content", and which wraps the children in the container
with id "main-content" and tabIndex -1. -/
theorem rootLayout_accessibility_structure (children : Node)
    (env : Option String) :
    (rootLayout env children).tag? = some "html" ∧
      (rootLayout env children).attr? "lang" = some (.str "de") ∧
      ∃ body, (rootLayout env children).children[1]? = some body ∧
        body.tag? = some "body" ∧
        (∃ skip, body.children.head? = some skip ∧
          skip.tag? = some "a" ∧
          skip.attr? "href" = some (.str "#main-content")) ∧
        ∃ container, body.children[1]? = some container ∧
          container.attr? "id" = some (.str "main-content") ∧
          container.attr? "tabIndex" = some (.int (-1)) ∧
          container.children = [children] := by
  refine ⟨rfl, rfl, ?_⟩
  refine ⟨_, rfl, rfl, ⟨_, rfl, rfl, rfl⟩, _, rfl, rfl, rfl, rfl⟩

/-- C10: with `NEXT_PUBLIC_API_BASE_URL` unset or empty, the layout's
preconnect link falls back to "http://localhost:8000" while the Home page
displays "Not configured" — two different fallback values; with the variable
set to a non-empty value, both use that exact value. -/
theorem api_base_fallback_values (children : Node) (s : String) :
    preconnectHref (rootLayout none children)
        = some (.str "http://localhost:8000") ∧
      homeApiText (home none) = some (.text "Not configured") ∧
      preconnectHref (rootLayout (some "") children)
        = some (.str "http://localhost:8000") ∧
      homeApiText (home (some "")) = some (.text "Not configured") ∧
      "http://localhost:8000" ≠ "Not configured" ∧
      (s ≠ "" →
        preconnectHref (rootLayout (some s) children) = some (.str s) ∧
          homeApiText (home (some s)) = some (.text s)) := by
  refine ⟨rfl, rfl, rfl, rfl, by decide, fun hs => ⟨?_, ?_⟩⟩
  · simp [preconnectHref, rootLayout, Node.children, Node.attr?, lookupAttr,
      jsOrElse, hs]
  · simp [homeApiText, home, Node.children, jsOrElse, hs]

end Klartext
